import Mathlib

/-!
Shallow embedding of the financial-wallet-system ledger engine
(src/services/walletService.ts, src/utils/validators.ts, the wallet
controller, and the postgres schema in database/migrations).

Money is modelled as ℤ: the store columns are NUMERIC(18,2) fixed-point
decimals, and every arithmetic step of the engine (balance + amount,
balance - amount) is exact decimal arithmetic, so integers (cent-scaled) embed it
faithfully.  The database tables become association lists:
`users` (id, email), `wallets` (user_id, balance; user_id is UNIQUE in the
schema), `transactions` (append-only records; `reference` is UNIQUE).
Each service method becomes an explicit state transformer returning
`Except AppError`, with `AppError` carrying the HTTP status and message
exactly as the TypeScript code throws them.  `db.transaction` blocks are
embedded as separate `...Locked` functions that receive the state as it
stands when the row locks are taken; an error anywhere inside aborts the
scope, so the caller-visible state is unchanged (`applyOp` keeps the old
state on any error).
-/

namespace WalletSystem

/-- The AppError(statusCode, message) class from src/middleware/errorHandler. -/
structure AppError where
  status : Nat
  message : String
deriving DecidableEq, Repr

/-- The `type` column of the transactions table:
`'credit' | 'debit' | 'transfer_out' | 'transfer_in'`. -/
inductive TxnType where
  | credit
  | debit
  | transfer_out
  | transfer_in
deriving DecidableEq, Repr

/-- One row of the `transactions` table, with the columns the claims are
about (id, wallet_id, description, status, created_at are omitted;
status is always written as 'success', wallet_id is determined by
user_id since wallets.user_id is UNIQUE). -/
structure Transaction where
  userId : String
  type : TxnType
  amount : ℤ
  reference : String
  balance_before : ℤ
  balance_after : ℤ
deriving DecidableEq, Repr

/-- The response shape of WalletService.transfer. -/
structure TransferResponse where
  sender_transaction : Transaction
  recipient_transaction : Transaction
  sender_new_balance : ℤ
  recipient_new_balance : ℤ
deriving DecidableEq, Repr

/-- The durable state the engine reads and writes: the three tables. -/
structure LedgerState where
  users : List (String × String)
  wallets : List (String × ℤ)
  transactions : List Transaction
deriving DecidableEq, Repr

instance {ε α : Type _} [DecidableEq ε] [DecidableEq α] : DecidableEq (Except ε α) :=
  fun x y =>
    match x, y with
    | .error a, .error b =>
      if h : a = b then isTrue (congrArg Except.error h)
      else isFalse (fun hh => h (Except.error.inj hh))
    | .ok a, .ok b =>
      if h : a = b then isTrue (congrArg Except.ok h)
      else isFalse (fun hh => h (Except.ok.inj hh))
    | .error _, .ok _ => isFalse Except.noConfusion
    | .ok _, .error _ => isFalse Except.noConfusion

/-- src/utils/validators.ts `isValidAmount`: `amount > 0 && Number.isFinite(amount)`
(finiteness is implicit in ℤ). -/
def isValidAmount (amount : ℤ) : Bool :=
  decide (0 < amount)

/-- The query `SELECT id FROM transactions WHERE reference = $1` followed by
`rows.length > 0`: does a record with this reference exist? -/
def referenceExists : List Transaction → String → Bool
  | [], _ => false
  | t :: ts, r => if t.reference = r then true else referenceExists ts r

/-- The query `SELECT id, balance FROM wallets WHERE user_id = $1 FOR UPDATE`:
the balance of the (unique) wallet row of this user, if any. -/
def findWallet : List (String × ℤ) → String → Option ℤ
  | [], _ => none
  | w :: ws, u => if w.1 = u then some w.2 else findWallet ws u

/-- The update `UPDATE wallets SET balance = balance + $1 WHERE id = $2`, keyed by
the owner (wallets.user_id is UNIQUE so the wallet id determines the
user id and conversely). -/
def updateBalance : List (String × ℤ) → String → ℤ → List (String × ℤ)
  | [], _, _ => []
  | w :: ws, u, d => (if w.1 = u then (w.1, w.2 + d) else w) :: updateBalance ws u d

/-- The insert `INSERT INTO transactions ...`: the table carries
`reference TEXT UNIQUE NOT NULL`, so inserting a row whose reference is
already present fails with a store-level constraint violation (surfaced
by the error middleware as a 500, not as the engine's 409). -/
def insertTransaction (txns : List Transaction) (t : Transaction) :
    Except AppError (List Transaction) :=
  if referenceExists txns t.reference then
    .error ⟨500, "duplicate key value violates unique constraint"⟩
  else
    .ok (t :: txns)

/-- Convenience: current balance of a user's wallet, 0 if absent. -/
def walletBalance (s : LedgerState) (userId : String) : ℤ :=
  (findWallet s.wallets userId).getD 0

/-- WalletService.credit (src lines 31-91).  `txnReference` is the
resolved reference (`reference || generateTransactionReference()`). -/
def credit (s : LedgerState) (userId : String) (amount : ℤ)
    (txnReference : String) : Except AppError (Transaction × LedgerState) :=
  if ¬ isValidAmount amount then .error ⟨400, "Invalid amount"⟩
  else if referenceExists s.transactions txnReference then
    .error ⟨409, "Transaction reference already exists"⟩
  else
    match findWallet s.wallets userId with
    | none => .error ⟨404, "Wallet not found"⟩
    | some balanceBefore =>
      let balanceAfter := balanceBefore + amount
      let txn : Transaction :=
        ⟨userId, .credit, amount, txnReference, balanceBefore, balanceAfter⟩
      (insertTransaction s.transactions txn).bind fun txns =>
        .ok (txn, { s with
          wallets := updateBalance s.wallets userId amount
          transactions := txns })

/-- The `db.transaction` body of WalletService.debit (src lines 111-153):
runs with the wallet row locked, so `s` here is the state as of lock
acquisition and the balance compared against `amount` is the fresh,
locked read. -/
def debitLocked (s : LedgerState) (userId : String) (amount : ℤ)
    (txnReference : String) : Except AppError (Transaction × LedgerState) :=
  match findWallet s.wallets userId with
  | none => .error ⟨404, "Wallet not found"⟩
  | some balanceBefore =>
    if balanceBefore < amount then .error ⟨400, "Insufficient balance"⟩
    else
      let balanceAfter := balanceBefore - amount
      let txn : Transaction :=
        ⟨userId, .debit, amount, txnReference, balanceBefore, balanceAfter⟩
      (insertTransaction s.transactions txn).bind fun txns =>
        .ok (txn, { s with
          wallets := updateBalance s.wallets userId (-amount)
          transactions := txns })

/-- WalletService.debit (src lines 93-158). -/
def debit (s : LedgerState) (userId : String) (amount : ℤ)
    (txnReference : String) : Except AppError (Transaction × LedgerState) :=
  if ¬ isValidAmount amount then .error ⟨400, "Invalid amount"⟩
  else if referenceExists s.transactions txnReference then
    .error ⟨409, "Transaction reference already exists"⟩
  else debitLocked s userId amount txnReference

/-- Recipient resolution in WalletService.transfer (src lines 229-245):
if recipient_email is supplied it wins and the user is looked up by
email; otherwise lookup is by id. -/
def resolveRecipient (s : LedgerState) (recipientEmail recipientUserId : Option String) :
    Except AppError String :=
  match recipientEmail with
  | some email =>
    match s.users.find? (fun u => u.2 == email) with
    | none => .error ⟨404, "Recipient user not found"⟩
    | some u => .ok u.1
  | none =>
    match recipientUserId with
    | some rid =>
      if s.users.any (fun u => u.1 == rid) then .ok rid
      else .error ⟨404, "Recipient user not found"⟩
    | none => .error ⟨400, "Recipient identifier is required"⟩

/-- Everything WalletService.transfer does before `db.transaction`, i.e.
before any wallet row lock is taken (src lines 214-249): amount
validation, the neither-selector check, the uniqueness check of the
BASE reference only, recipient resolution, the self-transfer check.
On success it yields the resolved recipient id. -/
def transferPreLock (s : LedgerState) (senderUserId : String)
    (recipientEmail recipientUserId : Option String)
    (amount : ℤ) (txnReference : String) : Except AppError String :=
  if ¬ isValidAmount amount then .error ⟨400, "Invalid amount"⟩
  else if recipientEmail.isNone && recipientUserId.isNone then
    .error ⟨400, "Either recipient_email or recipient_user_id must be provided"⟩
  else if referenceExists s.transactions txnReference then
    .error ⟨409, "Transaction reference already exists"⟩
  else
    (resolveRecipient s recipientEmail recipientUserId).bind fun recipientId =>
      if senderUserId = recipientId then
        .error ⟨400, "Cannot transfer to yourself"⟩
      else .ok recipientId

/-- The sequence of `FOR UPDATE` row-lock acquisitions issued by the
`db.transaction` body of WalletService.transfer, in program order:
the sender's wallet row is locked first (src line 252), the
recipient's second (src line 268), whatever the two identifiers are. -/
def transferLockOrder (senderUserId recipientId : String) : List String :=
  [senderUserId, recipientId]

/-- The `db.transaction` body of WalletService.transfer
(src lines 251-329): both wallet rows locked, sender balance re-read
and checked, both balances updated, two records inserted with the
derived references `base-OUT` and `base-IN`. -/
def transferLocked (s : LedgerState) (senderUserId recipientId : String)
    (amount : ℤ) (txnReference : String) :
    Except AppError (TransferResponse × LedgerState) :=
  match findWallet s.wallets senderUserId with
  | none => .error ⟨404, "Sender wallet not found"⟩
  | some senderBalanceBefore =>
    if senderBalanceBefore < amount then .error ⟨400, "Insufficient balance"⟩
    else
      match findWallet s.wallets recipientId with
      | none => .error ⟨404, "Recipient wallet not found"⟩
      | some recipientBalanceBefore =>
        let senderBalanceAfter := senderBalanceBefore - amount
        let recipientBalanceAfter := recipientBalanceBefore + amount
        let senderTxn : Transaction :=
          ⟨senderUserId, .transfer_out, amount, txnReference ++ "-OUT",
            senderBalanceBefore, senderBalanceAfter⟩
        let recipientTxn : Transaction :=
          ⟨recipientId, .transfer_in, amount, txnReference ++ "-IN",
            recipientBalanceBefore, recipientBalanceAfter⟩
        (insertTransaction s.transactions senderTxn).bind fun txns1 =>
          (insertTransaction txns1 recipientTxn).bind fun txns2 =>
            .ok (⟨senderTxn, recipientTxn, senderBalanceAfter, recipientBalanceAfter⟩,
              { s with
                wallets := updateBalance
                  (updateBalance s.wallets senderUserId (-amount)) recipientId amount
                transactions := txns2 })

/-- WalletService.transfer (src lines 205-348). -/
def transfer (s : LedgerState) (senderUserId : String)
    (recipientEmail recipientUserId : Option String)
    (amount : ℤ) (txnReference : String) :
    Except AppError (TransferResponse × LedgerState) :=
  (transferPreLock s senderUserId recipientEmail recipientUserId amount txnReference).bind
    fun recipientId => transferLocked s senderUserId recipientId amount txnReference

/-- WalletService.getTransactionByReference (src lines 190-203):
`WHERE reference = $1 AND user_id = $2`. -/
def getTransactionByReference (s : LedgerState) (reference userId : String) :
    Option Transaction :=
  s.transactions.find? (fun t => t.reference == reference && t.userId == userId)

/-- One mutation intent submitted to the engine. -/
inductive Op where
  | credit (userId : String) (amount : ℤ) (reference : String)
  | debit (userId : String) (amount : ℤ) (reference : String)
  | transfer (senderUserId : String) (recipientEmail recipientUserId : Option String)
      (amount : ℤ) (reference : String)
deriving DecidableEq, Repr

/-- Run one operation; any error aborts the atomic scope, leaving the
durable state exactly as it was. -/
def applyOp (s : LedgerState) : Op → LedgerState
  | .credit u a r =>
    match credit s u a r with
    | .ok (_, s') => s'
    | .error _ => s
  | .debit u a r =>
    match debit s u a r with
    | .ok (_, s') => s'
    | .error _ => s
  | .transfer u e ru a r =>
    match transfer s u e ru a r with
    | .ok (_, s') => s'
    | .error _ => s

/-- Run a sequence of operations. -/
def runOps (s : LedgerState) (ops : List Op) : LedgerState :=
  ops.foldl applyOp s

/-- Every wallet balance is non-negative (the CHECK (balance >= 0)
column invariant). -/
def walletsNonneg (s : LedgerState) : Prop :=
  ∀ w ∈ s.wallets, (0 : ℤ) ≤ w.2

instance (s : LedgerState) : Decidable (walletsNonneg s) := by
  unfold walletsNonneg; infer_instance

/-- The wallets table has one row per user (user_id UNIQUE). -/
def keysNodup (s : LedgerState) : Prop :=
  (s.wallets.map Prod.fst).Nodup

instance (s : LedgerState) : Decidable (keysNodup s) := by
  unfold keysNodup; infer_instance

/-- The signed amount of a record: positive for money flowing in,
negative for money flowing out. -/
def signedAmount (t : Transaction) : ℤ :=
  match t.type with
  | .credit => t.amount
  | .transfer_in => t.amount
  | .debit => -t.amount
  | .transfer_out => -t.amount

/-- The per-record snapshot invariant. -/
def recordOk (t : Transaction) : Prop :=
  t.balance_after = t.balance_before + signedAmount t

instance (t : Transaction) : Decidable (recordOk t) := by
  unfold recordOk; infer_instance

/-- All persisted records satisfy the snapshot invariant. -/
def recordsOk (s : LedgerState) : Prop :=
  ∀ t ∈ s.transactions, recordOk t

instance (s : LedgerState) : Decidable (recordsOk s) := by
  unfold recordsOk; infer_instance

/-! ### Helper lemmas about the store operations -/

theorem findWallet_mem {ws : List (String × ℤ)} {u : String} {b : ℤ}
    (h : findWallet ws u = some b) : (u, b) ∈ ws := by
  induction ws with
  | nil => simp [findWallet] at h
  | cons w ws ih =>
    unfold findWallet at h
    split at h
    · rename_i heq
      cases h
      cases w
      simp_all
    · exact List.mem_cons_of_mem _ (ih h)

theorem findWallet_updateBalance_self (ws : List (String × ℤ)) (u : String) (d : ℤ) :
    findWallet (updateBalance ws u d) u = (findWallet ws u).map (· + d) := by
  induction ws with
  | nil => simp [findWallet, updateBalance]
  | cons w ws ih =>
    by_cases h : w.1 = u
    · simp [updateBalance, findWallet, h]
    · simp [updateBalance, findWallet, h, ih]

theorem findWallet_updateBalance_ne {v u : String} (ws : List (String × ℤ)) (d : ℤ)
    (hne : v ≠ u) : findWallet (updateBalance ws u d) v = findWallet ws v := by
  induction ws with
  | nil => simp [findWallet, updateBalance]
  | cons w ws ih =>
    have huv : ¬ u = v := fun hvu => hne hvu.symm
    by_cases h : w.1 = u
    · simp [updateBalance, findWallet, h, huv, ih]
    · by_cases h2 : w.1 = v
      · simp [updateBalance, findWallet, h, h2, hne]
      · simp [updateBalance, findWallet, h, h2, ih]

theorem updateBalance_keys (ws : List (String × ℤ)) (u : String) (d : ℤ) :
    (updateBalance ws u d).map Prod.fst = ws.map Prod.fst := by
  induction ws with
  | nil => rfl
  | cons w ws ih =>
    unfold updateBalance
    simp only [List.map_cons, ih]
    split
    · rename_i heq
      simp [heq]
    · rfl

theorem updateBalance_of_not_mem {ws : List (String × ℤ)} {u : String} (d : ℤ)
    (h : u ∉ ws.map Prod.fst) : updateBalance ws u d = ws := by
  induction ws with
  | nil => rfl
  | cons w ws ih =>
    simp only [List.map_cons, List.mem_cons] at h
    push_neg at h
    unfold updateBalance
    rw [if_neg (fun he => h.1 he.symm), ih h.2]

theorem updateBalance_nonneg {ws : List (String × ℤ)} {u : String} {b d : ℤ}
    (hnd : (ws.map Prod.fst).Nodup)
    (hf : findWallet ws u = some b)
    (hbd : 0 ≤ b + d)
    (hws : ∀ w ∈ ws, (0 : ℤ) ≤ w.2) :
    ∀ w ∈ updateBalance ws u d, (0 : ℤ) ≤ w.2 := by
  induction ws with
  | nil => simp [updateBalance]
  | cons wh wt ih =>
    simp only [List.map_cons, List.nodup_cons] at hnd
    intro x hx
    by_cases h : wh.1 = u
    · rw [show updateBalance (wh :: wt) u d = (wh.1, wh.2 + d) :: updateBalance wt u d by
        simp [updateBalance, h]] at hx
      have hb : b = wh.2 := by
        have := hf
        simp [findWallet, h] at this
        exact this.symm
      rw [updateBalance_of_not_mem d (h ▸ hnd.1)] at hx
      rcases List.mem_cons.mp hx with h1 | h1
      · rw [h1]; simpa [hb] using hbd
      · exact hws x (List.mem_cons_of_mem _ h1)
    · rw [show updateBalance (wh :: wt) u d = wh :: updateBalance wt u d by
        simp [updateBalance, h]] at hx
      have hf' : findWallet wt u = some b := by simpa [findWallet, h] using hf
      rcases List.mem_cons.mp hx with h1 | h1
      · rw [h1]; exact hws wh (List.mem_cons_self _ _)
      · exact ih hnd.2 hf' (fun y hy => hws y (List.mem_cons_of_mem _ hy)) x h1

theorem referenceExists_iff {ts : List Transaction} {r : String} :
    referenceExists ts r = true ↔ ∃ t ∈ ts, t.reference = r := by
  induction ts with
  | nil => simp [referenceExists]
  | cons t ts ih =>
    unfold referenceExists
    split
    · rename_i heq
      simp only [true_iff]
      exact ⟨t, List.mem_cons_self _ _, heq⟩
    · rename_i heq
      rw [ih]
      constructor
      · rintro ⟨x, hx, hr⟩
        exact ⟨x, List.mem_cons_of_mem _ hx, hr⟩
      · rintro ⟨x, hx, hr⟩
        rcases List.mem_cons.mp hx with h1 | h1
        · exact absurd (h1 ▸ hr) heq
        · exact ⟨x, h1, hr⟩

theorem isValidAmount_pos {a : ℤ} (h : isValidAmount a = true) : 0 < a := by
  simpa [isValidAmount] using h

/-! ### Elimination lemmas: what a successful operation tells us -/

theorem credit_ok_elim {s : LedgerState} {u : String} {a : ℤ} {r : String}
    {txn : Transaction} {s' : LedgerState}
    (h : credit s u a r = .ok (txn, s')) :
    ∃ b, isValidAmount a = true ∧
      referenceExists s.transactions r = false ∧
      findWallet s.wallets u = some b ∧
      txn = ⟨u, .credit, a, r, b, b + a⟩ ∧
      s'.users = s.users ∧
      s'.wallets = updateBalance s.wallets u a ∧
      s'.transactions = txn :: s.transactions := by
  unfold credit at h
  split at h
  · exact absurd h (by simp)
  rename_i hval
  rw [not_not] at hval
  split at h
  · exact absurd h (by simp)
  rename_i hdup
  have hdup' : referenceExists s.transactions r = false := by simpa using hdup
  split at h
  · exact absurd h (by simp)
  rename_i b hw
  simp only [insertTransaction, hdup', Except.bind, Except.ok.injEq, Prod.mk.injEq,
    Bool.false_eq_true, if_false] at h
  obtain ⟨h1, h2⟩ := h
  exact ⟨b, hval, hdup', hw, h1.symm, by rw [← h2], by rw [← h2], by rw [← h2, ← h1]⟩

theorem debit_ok_elim {s : LedgerState} {u : String} {a : ℤ} {r : String}
    {txn : Transaction} {s' : LedgerState}
    (h : debit s u a r = .ok (txn, s')) :
    ∃ b, isValidAmount a = true ∧
      referenceExists s.transactions r = false ∧
      findWallet s.wallets u = some b ∧
      ¬ b < a ∧
      txn = ⟨u, .debit, a, r, b, b - a⟩ ∧
      s'.users = s.users ∧
      s'.wallets = updateBalance s.wallets u (-a) ∧
      s'.transactions = txn :: s.transactions := by
  unfold debit at h
  split at h
  · exact absurd h (by simp)
  rename_i hval
  rw [not_not] at hval
  split at h
  · exact absurd h (by simp)
  rename_i hdup
  have hdup' : referenceExists s.transactions r = false := by simpa using hdup
  unfold debitLocked at h
  split at h
  · exact absurd h (by simp)
  rename_i b hw
  split at h
  · exact absurd h (by simp)
  rename_i hlt
  simp only [insertTransaction, hdup', Except.bind, Except.ok.injEq, Prod.mk.injEq,
    Bool.false_eq_true, if_false] at h
  obtain ⟨h1, h2⟩ := h
  exact ⟨b, hval, hdup', hw, hlt, h1.symm, by rw [← h2], by rw [← h2], by rw [← h2, ← h1]⟩

theorem transferPreLock_ok_elim {s : LedgerState} {snd : String}
    {email rid : Option String} {a : ℤ} {r : String} {recip : String}
    (h : transferPreLock s snd email rid a r = .ok recip) :
    isValidAmount a = true ∧
    referenceExists s.transactions r = false ∧
    resolveRecipient s email rid = .ok recip ∧
    snd ≠ recip := by
  unfold transferPreLock at h
  split at h
  · exact absurd h (by simp)
  rename_i hval
  rw [not_not] at hval
  split at h
  · exact absurd h (by simp)
  split at h
  · exact absurd h (by simp)
  rename_i hdup
  cases hres : resolveRecipient s email rid with
  | error e =>
    rw [hres] at h
    exact absurd h (by simp [Except.bind])
  | ok rec =>
    rw [hres] at h
    simp only [Except.bind] at h
    split at h
    · exact absurd h (by simp)
    rename_i hne
    injection h with h
    subst h
    exact ⟨hval, by simpa using hdup, rfl, hne⟩

theorem transferLocked_ok_elim {s : LedgerState} {snd recip : String} {a : ℤ} {r : String}
    {resp : TransferResponse} {s' : LedgerState}
    (h : transferLocked s snd recip a r = .ok (resp, s')) :
    ∃ sBB rBB,
      findWallet s.wallets snd = some sBB ∧
      ¬ sBB < a ∧
      findWallet s.wallets recip = some rBB ∧
      resp = ⟨⟨snd, .transfer_out, a, r ++ "-OUT", sBB, sBB - a⟩,
              ⟨recip, .transfer_in, a, r ++ "-IN", rBB, rBB + a⟩,
              sBB - a, rBB + a⟩ ∧
      s'.users = s.users ∧
      s'.wallets = updateBalance (updateBalance s.wallets snd (-a)) recip a ∧
      s'.transactions =
        (⟨recip, .transfer_in, a, r ++ "-IN", rBB, rBB + a⟩ : Transaction) ::
        (⟨snd, .transfer_out, a, r ++ "-OUT", sBB, sBB - a⟩ : Transaction) ::
        s.transactions := by
  unfold transferLocked at h
  split at h
  · exact absurd h (by simp)
  rename_i sBB hsw
  split at h
  · exact absurd h (by simp)
  rename_i hlt
  split at h
  · exact absurd h (by simp)
  rename_i rBB hrw
  simp only [insertTransaction] at h
  split at h
  · exact absurd h (by simp [Except.bind])
  rename_i hout
  simp only [Except.bind] at h
  split at h
  · exact absurd h (by simp)
  rename_i hin
  simp only [Except.ok.injEq, Prod.mk.injEq] at h
  obtain ⟨h1, h2⟩ := h
  split at hin
  · exact absurd hin (by simp)
  injection hin with hin
  exact ⟨sBB, rBB, hsw, hlt, hrw, h1.symm, by rw [← h2], by rw [← h2],
    by rw [← h2]; exact hin.symm⟩

theorem transfer_ok_elim {s : LedgerState} {snd : String} {email rid : Option String}
    {a : ℤ} {r : String} {resp : TransferResponse} {s' : LedgerState}
    (h : transfer s snd email rid a r = .ok (resp, s')) :
    ∃ recip, transferPreLock s snd email rid a r = .ok recip ∧
      transferLocked s snd recip a r = .ok (resp, s') := by
  unfold transfer at h
  cases hp : transferPreLock s snd email rid a r with
  | error e =>
    rw [hp] at h
    exact absurd h (by simp [Except.bind])
  | ok recip =>
    rw [hp] at h
    simp only [Except.bind] at h
    exact ⟨recip, rfl, h⟩

/-! ### Preservation of the store invariants by every engine operation -/

theorem recordsOk_applyOp {s : LedgerState} (op : Op) (h : recordsOk s) :
    recordsOk (applyOp s op) := by
  cases op with
  | credit u a r =>
    simp only [applyOp]
    cases hc : credit s u a r with
    | error e => exact h
    | ok p =>
      obtain ⟨txn, s'⟩ := p
      obtain ⟨b, _, _, _, htxn, _, _, htx⟩ := credit_ok_elim hc
      intro t ht
      rw [htx] at ht
      rcases List.mem_cons.mp ht with h1 | h1
      · rw [h1, htxn]; simp [recordOk, signedAmount]
      · exact h t h1
  | debit u a r =>
    simp only [applyOp]
    cases hc : debit s u a r with
    | error e => exact h
    | ok p =>
      obtain ⟨txn, s'⟩ := p
      obtain ⟨b, _, _, _, _, htxn, _, _, htx⟩ := debit_ok_elim hc
      intro t ht
      rw [htx] at ht
      rcases List.mem_cons.mp ht with h1 | h1
      · rw [h1, htxn]; simp [recordOk, signedAmount]; ring
      · exact h t h1
  | transfer snd email rid a r =>
    simp only [applyOp]
    cases hc : transfer s snd email rid a r with
    | error e => exact h
    | ok p =>
      obtain ⟨resp, s'⟩ := p
      obtain ⟨recip, hp, hl⟩ := transfer_ok_elim hc
      obtain ⟨sBB, rBB, _, _, _, _, _, _, htx⟩ := transferLocked_ok_elim hl
      intro t ht
      rw [htx] at ht
      rcases List.mem_cons.mp ht with h1 | h1
      · rw [h1]; simp [recordOk, signedAmount]
      rcases List.mem_cons.mp h1 with h2 | h2
      · rw [h2]; simp [recordOk, signedAmount]; ring
      · exact h t h2

theorem keysNodup_applyOp {s : LedgerState} (op : Op) (h : keysNodup s) :
    keysNodup (applyOp s op) := by
  cases op with
  | credit u a r =>
    simp only [applyOp]
    cases hc : credit s u a r with
    | error e => exact h
    | ok p =>
      obtain ⟨txn, s'⟩ := p
      obtain ⟨b, _, _, _, _, _, hw', _⟩ := credit_ok_elim hc
      unfold keysNodup
      rw [hw', updateBalance_keys]
      exact h
  | debit u a r =>
    simp only [applyOp]
    cases hc : debit s u a r with
    | error e => exact h
    | ok p =>
      obtain ⟨txn, s'⟩ := p
      obtain ⟨b, _, _, _, _, _, _, hw', _⟩ := debit_ok_elim hc
      unfold keysNodup
      rw [hw', updateBalance_keys]
      exact h
  | transfer snd email rid a r =>
    simp only [applyOp]
    cases hc : transfer s snd email rid a r with
    | error e => exact h
    | ok p =>
      obtain ⟨resp, s'⟩ := p
      obtain ⟨recip, hp, hl⟩ := transfer_ok_elim hc
      obtain ⟨sBB, rBB, _, _, _, _, _, hw', _⟩ := transferLocked_ok_elim hl
      unfold keysNodup
      rw [hw', updateBalance_keys, updateBalance_keys]
      exact h

theorem walletsNonneg_applyOp {s : LedgerState} (op : Op) (hk : keysNodup s)
    (h : walletsNonneg s) : walletsNonneg (applyOp s op) := by
  cases op with
  | credit u a r =>
    simp only [applyOp]
    cases hc : credit s u a r with
    | error e => exact h
    | ok p =>
      obtain ⟨txn, s'⟩ := p
      obtain ⟨b, hval, _, hw, _, _, hw', _⟩ := credit_ok_elim hc
      intro w hwin
      rw [hw'] at hwin
      have hb0 : (0 : ℤ) ≤ b := h _ (findWallet_mem hw)
      have hpos := isValidAmount_pos hval
      exact updateBalance_nonneg hk hw (by linarith) h w hwin
  | debit u a r =>
    simp only [applyOp]
    cases hc : debit s u a r with
    | error e => exact h
    | ok p =>
      obtain ⟨txn, s'⟩ := p
      obtain ⟨b, hval, _, hw, hlt, _, _, hw', _⟩ := debit_ok_elim hc
      intro w hwin
      rw [hw'] at hwin
      have hba := not_lt.mp hlt
      exact updateBalance_nonneg hk hw (by linarith) h w hwin
  | transfer snd email rid a r =>
    simp only [applyOp]
    cases hc : transfer s snd email rid a r with
    | error e => exact h
    | ok p =>
      obtain ⟨resp, s'⟩ := p
      obtain ⟨recip, hp, hl⟩ := transfer_ok_elim hc
      obtain ⟨hval, _, _, hne⟩ := transferPreLock_ok_elim hp
      obtain ⟨sBB, rBB, hsw, hlt, hrw, _, _, hw', _⟩ := transferLocked_ok_elim hl
      intro w hwin
      rw [hw'] at hwin
      have hba := not_lt.mp hlt
      have hpos := isValidAmount_pos hval
      have hrBB0 : (0 : ℤ) ≤ rBB := h _ (findWallet_mem hrw)
      have step1 : ∀ x ∈ updateBalance s.wallets snd (-a), (0 : ℤ) ≤ x.2 :=
        updateBalance_nonneg hk hsw (by linarith) h
      have keys1 : ((updateBalance s.wallets snd (-a)).map Prod.fst).Nodup := by
        rw [updateBalance_keys]; exact hk
      have find1 : findWallet (updateBalance s.wallets snd (-a)) recip = some rBB := by
        rw [findWallet_updateBalance_ne _ _ (Ne.symm hne)]; exact hrw
      exact updateBalance_nonneg keys1 find1 (by linarith) step1 w hwin

/-! ### Concrete ledgers used to evaluate the theorems -/

/-- A two-user ledger: A holds 100, B holds 50, no records yet. -/
def sampleState : LedgerState :=
  { users := [("A", "a@x.com"), ("B", "b@x.com")]
    wallets := [("A", 100), ("B", 50)]
    transactions := [] }

/-- Like `sampleState`, but a record with reference "R-OUT" is already
stored (for user B), while no record with the base reference "R" exists. -/
def derivedRefState : LedgerState :=
  { users := [("A", "a@x.com"), ("B", "b@x.com")]
    wallets := [("A", 100), ("B", 50)]
    transactions := [⟨"B", .credit, 5, "R-OUT", 45, 50⟩] }

/-- The response of `transfer sampleState "A" (some "b@x.com") none 10 "T1"`. -/
def sampleTransferResponse : TransferResponse :=
  ⟨⟨"A", .transfer_out, 10, "T1-OUT", 100, 90⟩,
   ⟨"B", .transfer_in, 10, "T1-IN", 50, 60⟩, 90, 60⟩

/-- The ledger after `transfer sampleState "A" (some "b@x.com") none 10 "T1"`. -/
def sampleStateAfter : LedgerState :=
  { users := [("A", "a@x.com"), ("B", "b@x.com")]
    wallets := [("A", 90), ("B", 60)]
    transactions := [⟨"B", .transfer_in, 10, "T1-IN", 50, 60⟩,
                     ⟨"A", .transfer_out, 10, "T1-OUT", 100, 90⟩] }

/-! ### Claim theorems -/

/-- C1: for every committed Transfer, the sum of the sender's and the
recipient's wallet balances after the operation equals their sum before
it; both records carry the same amount, and the returned new balances
conserve the sum of the recorded before-balances. -/
theorem transfer_conserves_balances {s : LedgerState} {snd : String}
    {email rid : Option String} {a : ℤ} {r : String} {resp : TransferResponse}
    {s' : LedgerState}
    (h : transfer s snd email rid a r = .ok (resp, s')) :
    resp.sender_transaction.amount = resp.recipient_transaction.amount ∧
    walletBalance s' snd + walletBalance s' resp.recipient_transaction.userId =
      walletBalance s snd + walletBalance s resp.recipient_transaction.userId ∧
    resp.sender_new_balance + resp.recipient_new_balance =
      resp.sender_transaction.balance_before +
        resp.recipient_transaction.balance_before := by
  obtain ⟨recip, hp, hl⟩ := transfer_ok_elim h
  obtain ⟨hval, hdup, hres, hne⟩ := transferPreLock_ok_elim hp
  obtain ⟨sBB, rBB, hsw, hlt, hrw, hresp, hu, hw, ht⟩ := transferLocked_ok_elim hl
  subst hresp
  have h1 : findWallet s'.wallets snd = some (sBB + -a) := by
    rw [hw, findWallet_updateBalance_ne _ _ hne, findWallet_updateBalance_self, hsw]
    rfl
  have h2 : findWallet s'.wallets recip = some (rBB + a) := by
    rw [hw, findWallet_updateBalance_self, findWallet_updateBalance_ne _ _ (Ne.symm hne),
      hrw]
    rfl
  refine ⟨rfl, ?_, ?_⟩
  · show walletBalance s' snd + walletBalance s' recip =
      walletBalance s snd + walletBalance s recip
    unfold walletBalance
    rw [h1, h2, hsw, hrw]
    show (sBB + -a) + (rBB + a) = sBB + rBB
    ring
  · show (sBB - a) + (rBB + a) = sBB + rBB
    ring

/-- C1 witness: the conservation theorem applied to a concrete transfer
of 10 from A (balance 100) to B (balance 50). -/
theorem transfer_conserves_balances_witness :
    walletBalance sampleStateAfter "A" + walletBalance sampleStateAfter "B" =
      walletBalance sampleState "A" + walletBalance sampleState "B" := by
  have h : transfer sampleState "A" (some "b@x.com") none 10 "T1" =
      .ok (sampleTransferResponse, sampleStateAfter) := by decide
  exact (transfer_conserves_balances h).2.1

/-- C2: starting from a store whose records all satisfy
balance_after = balance_before + signed_amount (with signed_amount
+amount for Credit/TransferIn and -amount for Debit/TransferOut),
every record persisted by any sequence of Credit, Debit and Transfer
operations satisfies it as well. -/
theorem records_satisfy_snapshot_invariant {s : LedgerState} (ops : List Op)
    (h : recordsOk s) : recordsOk (runOps s ops) := by
  induction ops generalizing s with
  | nil => exact h
  | cons op ops ih => exact ih (recordsOk_applyOp op h)

/-- C2 witness: a concrete run (credit, debit, transfer) from the empty
record store keeps the snapshot invariant. -/
theorem records_satisfy_snapshot_invariant_witness :
    recordsOk (runOps sampleState
      [.credit "A" 25 "C1", .debit "A" 5 "D1",
       .transfer "A" none (some "B") 10 "T1"]) :=
  records_satisfy_snapshot_invariant _ (by decide)

/-- C3: a Debit whose amount exceeds the balance read inside the locked
scope fails with InsufficientBalance (the comparison in `debitLocked`
is against the balance of the state passed at lock time, not a stale
pre-read), and the failed call leaves wallets and records unchanged. -/
theorem debit_insufficient_balance {s : LedgerState} {u r : String} {a b : ℤ}
    (ha : isValidAmount a = true)
    (hr : referenceExists s.transactions r = false)
    (hb : findWallet s.wallets u = some b)
    (hlt : b < a) :
    debitLocked s u a r = .error ⟨400, "Insufficient balance"⟩ ∧
    debit s u a r = .error ⟨400, "Insufficient balance"⟩ ∧
    applyOp s (.debit u a r) = s := by
  have hlocked : debitLocked s u a r = .error ⟨400, "Insufficient balance"⟩ := by
    unfold debitLocked
    simp only [hb]
    rw [if_pos hlt]
  have hdeb : debit s u a r = .error ⟨400, "Insufficient balance"⟩ := by
    unfold debit
    rw [ha, hr]
    simpa using hlocked
  exact ⟨hlocked, hdeb, by simp only [applyOp, hdeb]⟩

/-- C3 witness: debiting 500 from A, who holds 100, fails with
InsufficientBalance and changes nothing. -/
theorem debit_insufficient_balance_witness :
    debit sampleState "A" 500 "D9" = .error ⟨400, "Insufficient balance"⟩ ∧
    applyOp sampleState (.debit "A" 500 "D9") = sampleState :=
  ⟨(@debit_insufficient_balance sampleState "A" "D9" 500 100 (by decide) (by decide)
      (by decide) (by decide)).2.1,
   (@debit_insufficient_balance sampleState "A" "D9" 500 100 (by decide) (by decide)
      (by decide) (by decide)).2.2⟩

/-- C7: non-negativity of every wallet balance is an invariant: from a
state with one wallet row per user and all balances non-negative, no
sequence of Credit, Debit and Transfer operations produces a negative
balance. -/
theorem balances_never_negative {s : LedgerState} (ops : List Op)
    (hk : keysNodup s) (h : walletsNonneg s) : walletsNonneg (runOps s ops) := by
  induction ops generalizing s with
  | nil => exact h
  | cons op ops ih => exact ih (keysNodup_applyOp op hk) (walletsNonneg_applyOp op hk h)

/-- C7 witness: a concrete run of all three operation kinds keeps both
balances non-negative. -/
theorem balances_never_negative_witness :
    walletsNonneg (runOps sampleState
      [.credit "B" 25 "C1", .debit "A" 100 "D1",
       .transfer "B" none (some "A") 30 "T1"]) :=
  balances_never_negative _ (by decide) (by decide)

/-- C4: the lock acquisition order of the transfer's locked scope is
sender's wallet first, recipient's second (src lines 252 and 268), so
it is role-dependent: for the same pair of accounts, the A-to-B transfer
and the B-to-A transfer acquire the two locks in opposite orders —
exactly the ordering the spec forbids as a deadlock risk. -/
theorem transfer_lock_order_role_dependent :
    transferLockOrder "A" "B" = ["A", "B"] ∧
    transferLockOrder "B" "A" = ["B", "A"] ∧
    transferLockOrder "A" "B" ≠ transferLockOrder "B" "A" :=
  ⟨rfl, rfl, by decide⟩

/-- C5 counterexample: in a ledger that already stores a record with
reference "R-OUT" (and none with "R"), a transfer with base reference
"R" is NOT rejected before locking — the pre-lock phase admits it —
and the operation then dies inside the locked scope on the store's
uniqueness constraint (a 500), not with the engine's DuplicateReference
rejection. -/
theorem transfer_derived_ref_not_prechecked :
    referenceExists derivedRefState.transactions "R-OUT" = true ∧
    referenceExists derivedRefState.transactions "R" = false ∧
    transferPreLock derivedRefState "A" none (some "B") 10 "R" = .ok "B" ∧
    transfer derivedRefState "A" none (some "B") 10 "R" =
      .error ⟨500, "duplicate key value violates unique constraint"⟩ :=
  ⟨rfl, rfl, by decide, by decide⟩

/-- C5 amended: before any lock is taken the engine checks only the BASE
reference for uniqueness.  The pre-lock phase is insensitive to the
derived references: its outcome depends on the record store only
through `referenceExists` of the base reference (first conjunct), and a
duplicate base reference is rejected with 409 before locking (second
conjunct). -/
theorem transferPreLock_checks_base_reference_only
    {s q : LedgerState} (snd : String) (email rid : Option String)
    (a : ℤ) (r : String)
    (hu : q.users = s.users)
    (hx : referenceExists q.transactions r = referenceExists s.transactions r) :
    transferPreLock q snd email rid a r = transferPreLock s snd email rid a r ∧
    (isValidAmount a = true → (email.isNone && rid.isNone) = false →
      referenceExists s.transactions r = true →
      transferPreLock s snd email rid a r =
        .error ⟨409, "Transaction reference already exists"⟩) := by
  constructor
  · have hres : resolveRecipient q email rid = resolveRecipient s email rid := by
      unfold resolveRecipient
      rw [hu]
    unfold transferPreLock
    rw [hx, hres]
  · intro ha hsel hdup
    unfold transferPreLock
    rw [ha, hsel, hdup]
    simp

/-- C5 amended witness: the presence of "R-OUT" in the store makes no
difference to the pre-lock phase of a transfer with base reference "R"
(compared against the record-free ledger), and a duplicate base
reference is rejected with 409. -/
theorem transferPreLock_checks_base_reference_only_witness :
    transferPreLock derivedRefState "A" none (some "B") 10 "R" =
      transferPreLock sampleState "A" none (some "B") 10 "R" ∧
    transferPreLock derivedRefState "A" none (some "B") 10 "R-OUT" =
      .error ⟨409, "Transaction reference already exists"⟩ :=
  ⟨(transferPreLock_checks_base_reference_only "A" none (some "B") 10 "R"
      (by decide) (by decide)).1,
   (@transferPreLock_checks_base_reference_only derivedRefState derivedRefState
      "A" none (some "B") 10 "R-OUT" (by decide) (by decide)).2
     (by decide) (by decide) (by decide)⟩

/-- C6: a Credit with a valid amount whose reference already exists in
the record store is rejected with 409 DuplicateReference, and the
failed call changes neither wallets nor records. -/
theorem credit_duplicate_reference {s : LedgerState} {u r : String} {a : ℤ}
    (ha : isValidAmount a = true)
    (hr : referenceExists s.transactions r = true) :
    credit s u a r = .error ⟨409, "Transaction reference already exists"⟩ ∧
    applyOp s (.credit u a r) = s := by
  have hc : credit s u a r = .error ⟨409, "Transaction reference already exists"⟩ := by
    unfold credit
    rw [ha, hr]
    simp
  exact ⟨hc, by simp only [applyOp, hc]⟩

/-- C6 witness: re-crediting with the already-used reference "R-OUT" is
rejected and leaves the ledger unchanged. -/
theorem credit_duplicate_reference_witness :
    credit derivedRefState "B" 5 "R-OUT" =
      .error ⟨409, "Transaction reference already exists"⟩ ∧
    applyOp derivedRefState (.credit "B" 5 "R-OUT") = derivedRefState :=
  ⟨(@credit_duplicate_reference derivedRefState "B" "R-OUT" 5
      (by decide) (by decide)).1,
   (@credit_duplicate_reference derivedRefState "B" "R-OUT" 5
      (by decide) (by decide)).2⟩

/-- C8: a Transfer whose recipient resolves to the sender is rejected
with "Cannot transfer to yourself", whatever the sender's balance and
the (valid) amount, with no state change. -/
theorem transfer_self_rejected {s : LedgerState} {snd : String}
    {email rid : Option String} {a : ℤ} {r : String}
    (ha : isValidAmount a = true)
    (hr : referenceExists s.transactions r = false)
    (hres : resolveRecipient s email rid = .ok snd) :
    transfer s snd email rid a r = .error ⟨400, "Cannot transfer to yourself"⟩ ∧
    applyOp s (.transfer snd email rid a r) = s := by
  have hsel : (email.isNone && rid.isNone) = false := by
    cases email with
    | some e => rfl
    | none =>
      cases rid with
      | some i => rfl
      | none => simp [resolveRecipient] at hres
  have hpre : transferPreLock s snd email rid a r =
      .error ⟨400, "Cannot transfer to yourself"⟩ := by
    unfold transferPreLock
    rw [ha, hsel, hr]
    simp [hres, Except.bind]
  have ht : transfer s snd email rid a r =
      .error ⟨400, "Cannot transfer to yourself"⟩ := by
    unfold transfer
    rw [hpre]
    rfl
  exact ⟨ht, by simp only [applyOp, ht]⟩

/-- C8 witness: A transferring to A's own email is rejected with the
self-transfer error and nothing changes, even though the balance (100)
covers the amount (10). -/
theorem transfer_self_rejected_witness :
    transfer sampleState "A" (some "a@x.com") none 10 "T7" =
      .error ⟨400, "Cannot transfer to yourself"⟩ ∧
    applyOp sampleState (.transfer "A" (some "a@x.com") none 10 "T7") = sampleState :=
  ⟨(@transfer_self_rejected sampleState "A" (some "a@x.com") none 10 "T7"
      (by decide) (by decide) (by decide)).1,
   (@transfer_self_rejected sampleState "A" (some "a@x.com") none 10 "T7"
      (by decide) (by decide) (by decide)).2⟩

/-- C9 counterexample: a Transfer call supplying BOTH selector forms —
an email that resolves to B and a user id ("ZZZ") that does not even
exist — is not rejected as ambiguous: it resolves by email, ignores the
id, and commits. -/
theorem transfer_both_selectors_proceeds :
    sampleState.users.any (fun u => u.1 == "ZZZ") = false ∧
    (transfer sampleState "A" (some "b@x.com") (some "ZZZ") 10 "T1").isOk = true :=
  ⟨rfl, rfl⟩

/-- C9 amended: a Transfer with neither selector fails with the
invalid-request error; a Transfer with both selectors supplied is not
rejected — it behaves exactly as if only the email had been supplied
(the recipient id is ignored). -/
theorem transfer_selector_validation {s : LedgerState} {snd : String}
    {rid : Option String} {a : ℤ} {r : String}
    (ha : isValidAmount a = true) :
    transfer s snd none none a r =
      .error ⟨400, "Either recipient_email or recipient_user_id must be provided"⟩ ∧
    ∀ e : String, transfer s snd (some e) rid a r = transfer s snd (some e) none a r := by
  constructor
  · unfold transfer transferPreLock
    rw [ha]
    simp [Except.bind]
  · intro e
    rfl

/-- C9 amended witness: the neither-selector rejection and the
both-equals-email-only equation at concrete inputs. -/
theorem transfer_selector_validation_witness :
    transfer sampleState "A" none none 10 "T2" =
      .error ⟨400, "Either recipient_email or recipient_user_id must be provided"⟩ ∧
    transfer sampleState "A" (some "b@x.com") (some "ZZZ") 10 "T1" =
      transfer sampleState "A" (some "b@x.com") none 10 "T1" :=
  ⟨(@transfer_selector_validation sampleState "A" none 10 "T2" (by decide)).1,
   (@transfer_selector_validation sampleState "A" (some "ZZZ") 10 "T1"
      (by decide)).2 "b@x.com"⟩

/-- C10: getTransactionByReference filters on reference AND owner: if
the (globally unique) reference belongs to a record owned by someone
other than the querying user, the query returns none. -/
theorem getTransactionByReference_owner_scoped {s : LedgerState} {r u : String}
    {t : Transaction}
    (hnd : (s.transactions.map Transaction.reference).Nodup)
    (ht : t ∈ s.transactions) (hrf : t.reference = r) (hid : t.userId ≠ u) :
    getTransactionByReference s r u = none := by
  unfold getTransactionByReference
  rw [List.find?_eq_none]
  intro x hx
  simp only [Bool.and_eq_true, beq_iff_eq, not_and]
  intro hxr
  have hxt : x = t := List.inj_on_of_nodup_map hnd hx ht (by rw [hxr, hrf])
  rw [hxt]
  exact hid

/-- C10 witness: user A cannot fetch B's record by its reference. -/
theorem getTransactionByReference_owner_scoped_witness :
    getTransactionByReference derivedRefState "R-OUT" "A" = none :=
  @getTransactionByReference_owner_scoped derivedRefState "R-OUT" "A"
    ⟨"B", .credit, 5, "R-OUT", 45, 50⟩ (by decide) (by decide) (by decide) (by decide)

end WalletSystem
